import Mathlib

set_option maxRecDepth 100000

/-!
Verification development for `remote_ikernel/kernel.py`: a shallow embedding of
the pure, state-transforming parts of the launcher (uuid extraction from the
connection-info filename, scheduler launch-command assembly, host rewriting for
`host:port` destinations, the credential prompter, the spawn primitive, the
tunnel health check and the keep-alive supervisor loop), together with theorems
about them.

Strings are modelled as Lean `String`/`List Char`; Python string operations
(`str.replace`, `str.strip`, `" ".join`, `in`, truthiness of strings) are
embedded explicitly where they are used.
-/

/-! ## Basic string helpers (embedding Python primitives) -/

/-- A hexadecimal digit as accepted by the character class `[0-9a-f]` used by
the regex in `extract_uuid` (lowercase only). -/
def isHexDig (c : Char) : Bool :=
  (('0' ≤ c && c ≤ '9') || ('a' ≤ c && c ≤ 'f'))

/-- Python `":" in s` membership test on a string. -/
def hasColon (s : String) : Bool := s.data.contains ':'

/-- Python `s.replace(":", " -p ")` on the character list: every occurrence of
a colon is replaced by the four characters of `" -p "`. -/
def replaceColonList : List Char → List Char
  | [] => []
  | c :: l => if c = ':' then ' ' :: '-' :: 'p' :: ' ' :: replaceColonList l else c :: replaceColonList l

/-- The host rewriting idiom used at every site that consumes a host string
(`launch_ssh`, `tunnel_hosts_cmd`, `tunnel_connection`, `tunnel_cmd`):
`if ":" in host: host = host.replace(":", " -p ")`. -/
def rewriteHost (h : String) : String :=
  if hasColon h then ⟨replaceColonList h.data⟩ else h

/-- Python `s.strip()` on a character list: whitespace removed from both ends. -/
def pyStrip (l : List Char) : List Char :=
  ((l.dropWhile Char.isWhitespace).reverse.dropWhile Char.isWhitespace).reverse

/-- Python `" ".join(parts)`. -/
def joinSpace : List String → String
  | [] => ""
  | [s] => s
  | s :: rest => s ++ " " ++ joinSpace rest

/-- Python truthiness test for an optional string argument
(`if self.launch_args: ... else: ""`): `None` and `""` are falsy. -/
def argsString (launchArgs : Option String) : String :=
  match launchArgs with
  | none => ""
  | some a => if a = "" then "" else a

/-! ## `extract_uuid` (kernel.py lines 153-177)

The source matches the filename against the regex
`.*kernel-([0-9a-f]{8}-?[0-9a-f]{4}-?4[0-9a-f]{3}-?[89ab][0-9a-f]{3}-?[0-9a-f]{12}).json`
with `re.match` and, on success, returns `uuid.UUID(group(1))`.  The embedding
below implements exactly that matcher: a leading greedy `.*` (which cannot
cross a newline and makes the match start at the rightmost viable position),
the literal `kernel-`, five fixed-length runs of lowercase hex digits with a
version nibble forced to `4` and a variant nibble in `[89ab]`, each pair of
runs separated by an optional `-` (deterministic here because `-` can never
start the following character class), one arbitrary non-newline character for
the unescaped `.` of `.json`, and the literal `json` with no end anchor.
The returned value is the canonical hyphenated form of the 32 captured hex
digits, which is exactly `str` of the `uuid.UUID` built from the capture. -/

/-- Match a literal character sequence, returning the rest of the input. -/
def parseLit : List Char → List Char → Option (List Char)
  | [], l => some l
  | _ :: _, [] => none
  | c :: cs, x :: l => if x = c then parseLit cs l else none

/-- Match exactly `n` lowercase hex digits (`[0-9a-f]` with a fixed repeat
count), returning the digits and the rest of the input. -/
def parseHexRun : Nat → List Char → Option (List Char × List Char)
  | 0, l => some ([], l)
  | _ + 1, [] => none
  | n + 1, c :: l =>
    if isHexDig c then
      match parseHexRun n l with
      | some (ds, rest) => some (c :: ds, rest)
      | none => none
    else none

/-- The optional hyphen `-?` between hex runs.  Deterministic: a hyphen can
never begin the character class that follows, so the greedy option always
consumes a hyphen when one is present. -/
def dropOptDash : List Char → List Char
  | '-' :: l => l
  | l => l

/-- The body of the capture group: `[0-9a-f]{8}-?[0-9a-f]{4}-?4[0-9a-f]{3}`
`-?[89ab][0-9a-f]{3}-?[0-9a-f]{12}`.  Returns the 32 hex digits, hyphens
dropped (as `uuid.UUID` does), and the rest of the input. -/
def parseUuidBody (l : List Char) : Option (List Char × List Char) :=
  match parseHexRun 8 l with
  | none => none
  | some (g1, l1) =>
    match parseHexRun 4 (dropOptDash l1) with
    | none => none
    | some (g2, l2) =>
      match dropOptDash l2 with
      | [] => none
      | c :: l3 =>
        if c = '4' then
          match parseHexRun 3 l3 with
          | none => none
          | some (g3, l4) =>
            match dropOptDash l4 with
            | [] => none
            | v :: l5 =>
              if v = '8' || v = '9' || v = 'a' || v = 'b' then
                match parseHexRun 3 l5 with
                | none => none
                | some (g4, l6) =>
                  match parseHexRun 12 (dropOptDash l6) with
                  | none => none
                  | some (g5, l7) => some (g1 ++ g2 ++ c :: g3 ++ v :: g4 ++ g5, l7)
              else none
        else none

/-- Match `kernel-<uuid-body>.json` at the head of the input (the `.` is the
regex any-character, excluding newline), returning the captured hex digits. -/
def parseKernelAt (l : List Char) : Option (List Char) :=
  match parseLit "kernel-".data l with
  | none => none
  | some l1 =>
    match parseUuidBody l1 with
    | none => none
    | some (ds, l2) =>
      match l2 with
      | c :: l3 => if c = '\n' then none else (parseLit "json".data l3).map (fun _ => ds)
      | [] => none

/-- The leading greedy `.*` of the `re.match`: try start positions from the
rightmost one first (the greedy star backtracks from the longest prefix) and
never move the start past a newline (`.` does not match `\n`). -/
def extractAux : List Char → Option (List Char)
  | [] => none
  | c :: rest =>
    match (if c = '\n' then none else extractAux rest) with
    | some ds => some ds
    | none => parseKernelAt (c :: rest)

/-- Canonical hyphenated form `8-4-4-4-12` of a 32-hex-digit list; this is
`str` of the corresponding `uuid.UUID`. -/
def canonicalOfDigits (ds : List Char) : String :=
  ⟨ds.take 8 ++ '-' :: ((ds.drop 8).take 4 ++ '-' :: ((ds.drop 12).take 4 ++
    '-' :: ((ds.drop 16).take 4 ++ '-' :: ds.drop 20)))⟩

/-- Embedding of `extract_uuid(filename)`: the canonical string of the
extracted UUID, or `none` when the regex does not match. -/
def extract_uuid (filename : String) : Option String :=
  (extractAux filename.data).map canonicalOfDigits

/-- Hex digit `i` (0 = most significant of 32) of the 128-bit value `r`. -/
def nibble (r i : Nat) : Nat := r / 16 ^ (31 - i) % 16

/-- The 32 hex digits of `uuid.uuid4()` run with `r` as the 128-bit random
value: CPython forces the version nibble (digit 12) to `4` and the top two
bits of the variant nibble (digit 16) to `10`, keeping every other bit of the
random value. -/
def uuid4digits (r : Nat) : List Char :=
  List.ofFn (fun i : Fin 32 =>
    if i.val = 12 then '4'
    else if i.val = 16 then Nat.digitChar (8 + nibble r 16 % 4)
    else Nat.digitChar (nibble r i.val))

/-- Canonical string of `uuid.uuid4()` for random value `r`. -/
def uuid4hex (r : Nat) : String := canonicalOfDigits (uuid4digits r)

/-- Embedding of `self.uuid = extract_uuid(connection_info) or uuid.uuid4()`
(kernel.py line 233); `r` is the random value consumed by `uuid.uuid4()` when
extraction fails (a `uuid.UUID` is always truthy, so `or` selects the
extracted uuid whenever there is one). -/
def sessionUuid (connectionInfo : String) (r : Nat) : String :=
  (extract_uuid connectionInfo).getD (uuid4hex r)

/-- Acceptance test of the `uuid.UUID(hex)` constructor on a plain hyphenated
string: after removing hyphens, exactly 32 hex digits (case-insensitive) must
remain.  Such a string parses as a UUID of any version. -/
def pyUuidParses (s : String) : Bool :=
  let hexs := s.data.filter (fun c => c ≠ '-')
  hexs.length = 32 && hexs.all (fun c => isHexDig c || ('A' ≤ c && c ≤ 'F'))

/-- A canonical, well-formed version-4 RFC-variant UUID string: 32 hex digits
in `8-4-4-4-12` layout whose digit 12 is `4` and whose digit 16 is one of
`8`, `9`, `a`, `b`. -/
def IsWellFormedV4 (s : String) : Prop :=
  ∃ ds : List Char, s = canonicalOfDigits ds ∧ ds.length = 32 ∧
    (∀ c ∈ ds, isHexDig c = true) ∧ ds[12]? = some '4' ∧
    ∃ v, ds[16]? = some v ∧ (v = '8' ∨ v = '9' ∨ v = 'a' ∨ v = 'b')

/-! ## Launch-command assembly (kernel.py lines 267-449)

Each `launch_*` method formats a command string from the session fields.  The
resource-request fragment (`cpu_string`, `pe_string`, `tasks`) is the empty
string unless `self.cpus > 1`.  `get_cmd` substitutes `launch_cmd` for the
default executable when it is not `None`. -/

/-- Embedding of `get_cmd(default)`: the override when set, else the default. -/
def get_cmd (launchCmd : Option String) (dflt : String) : String := launchCmd.getD dflt

/-- The `cpu_string` of `launch_pbs`. -/
def pbs_cpu_string (cpus : Nat) : String :=
  if 1 < cpus then "-l ncpus=" ++ toString cpus else ""

/-- The PBS command `"{qsub} -I {cpus} -N {name} {args}"` of `launch_pbs`. -/
def pbs_cmd (cpus : Nat) (launchArgs launchCmd : Option String) : String :=
  get_cmd launchCmd "qsub" ++ " -I " ++ pbs_cpu_string cpus ++ " -N remote_ikernel " ++
    argsString launchArgs

/-- The `pe_string` of `launch_sge`. -/
def sge_pe_string (pe : String) (cpus : Nat) : String :=
  if 1 < cpus then "-pe " ++ pe ++ " " ++ toString cpus else ""

/-- The GridEngine command `"{qlogin} -verbose -now n {pe} -N {name} {args}"`
of `launch_sge` (`qlogin` is `"qlogin"` or `"qrsh"`). -/
def sge_cmd (qlogin : String) (cpus : Nat) (pe : String)
    (launchArgs launchCmd : Option String) : String :=
  get_cmd launchCmd qlogin ++ " -verbose -now n " ++ sge_pe_string pe cpus ++
    " -N remote_ikernel " ++ argsString launchArgs

/-- The `tasks` fragment of `launch_slurm`. -/
def slurm_tasks_string (cpus : Nat) : String :=
  if 1 < cpus then "--cpus-per-task " ++ toString cpus else ""

/-- The SLURM command `"{srun} {tasks} -J {job_name} {args} -v --pty bash -i"`
of `launch_slurm`. -/
def slurm_cmd (cpus : Nat) (launchArgs launchCmd : Option String) : String :=
  get_cmd launchCmd "srun" ++ " " ++ slurm_tasks_string cpus ++ " -J remote_ikernel " ++
    argsString launchArgs ++ " -v --pty bash -i"

/-- The `tasks` fragment of `launch_lsf`. -/
def lsf_tasks_string (cpus : Nat) : String :=
  if 1 < cpus then "-n " ++ toString cpus else ""

/-- The LSF command `"{bsub} {tasks} -J {job_name} {args} -Is /bin/bash"` of
`launch_lsf`. -/
def lsf_cmd (cpus : Nat) (launchArgs launchCmd : Option String) : String :=
  get_cmd launchCmd "bsub" ++ " " ++ lsf_tasks_string cpus ++ " -J remote_ikernel " ++
    argsString launchArgs ++ " -Is /bin/bash"

/-- The shell command spawned by `launch_local`. -/
def local_cmd (launchArgs launchCmd : Option String) : String :=
  if argsString launchArgs = "" then get_cmd launchCmd "/bin/bash"
  else get_cmd launchCmd "/bin/bash" ++ " " ++ argsString launchArgs

/-- The login command `"ssh -o StrictHostKeyChecking=no {args} {host}"` of
`launch_ssh`, with the `host:port` rewrite applied first. -/
def ssh_login_cmd (launchArgs : Option String) (host : String) : String :=
  "ssh -o StrictHostKeyChecking=no " ++ argsString launchArgs ++ " " ++ rewriteHost host

/-- Embedding of the `tunnel_hosts_cmd` property (for a non-`None` host list):
for each gateway, `["ssh -o StrictHostKeyChecking=no", host]` with the
`host:port` rewrite, all joined by single spaces. -/
def tunnel_hosts_cmd (hosts : List String) : String :=
  joinSpace (hosts.flatMap (fun h => ["ssh -o StrictHostKeyChecking=no", rewriteHost h]))

/-- The five named forwarded ports of the connection info. -/
structure PortSet where
  hb_port : Nat
  shell_port : Nat
  iopub_port : Nat
  stdin_port : Nat
  control_port : Nat

/-- One `-L 127.0.0.1:{port}:127.0.0.1:{port}` forward flag, with the port
substituted (the source leaves `{port}` placeholders in `tunnel_cmd` and
`tunnel_connection` fills them from `connection_info` via `str.format`;
the embedding composes the two steps). -/
def portForwardFlag (p : Nat) : String :=
  "-L 127.0.0.1:" ++ toString p ++ ":127.0.0.1:" ++ toString p

/-- The `ports_str` of `tunnel_cmd`, ports already substituted, in the fixed
order `hb`, `shell`, `iopub`, `stdin`, `control` of `PORT_NAMES`. -/
def portsStr (ps : PortSet) : String :=
  joinSpace [portForwardFlag ps.hb_port, portForwardFlag ps.shell_port,
    portForwardFlag ps.iopub_port, portForwardFlag ps.stdin_port,
    portForwardFlag ps.control_port]

/-- Embedding of the `tunnel_cmd` property composed with the `str.format` that
substitutes the ports: a chain of `ssh {ports_str} {gateway}` hops followed by
`ssh {ports_str} {host} sleep 600`, stripped of surrounding whitespace. -/
def tunnel_cmd (tunnelHosts : Option (List String)) (host : String) (ps : PortSet) : String :=
  ⟨pyStrip (joinSpace ((tunnelHosts.getD []).map
      (fun h => "ssh " ++ portsStr ps ++ " " ++ rewriteHost h)) ++ " " ++
    ("ssh " ++ portsStr ps ++ " " ++ rewriteHost host ++ " sleep 600")).data⟩

/-! ## `check_password` (kernel.py lines 116-151)

The prompter loops: an immediate non-blocking read (`timeout=-1`); a
`pexpect.TIMEOUT` means no data and returns; otherwise the chunk is searched
for `Enter passphrase .*:` and `.*@.* password:` (`re.search`, `.` not
matching newline); a match obtains a secret and sends it back with
`sendline`; no match returns.  The process is modelled by the script of read
outcomes it produces; the secret provider is abstracted as a function of the
chunk (the source passes the matched prompt text to `get_password`). -/

/-- Outcome of one `read_nonblocking` call. -/
inductive ReadResult
  | timeout
  | chunk (text : String)

/-- Occurrence of `pat` as a contiguous subsequence of a character list. -/
def containsSub (pat : List Char) : List Char → Bool
  | [] => pat.isEmpty
  | c :: rest => pat.isPrefixOf (c :: rest) || containsSub pat rest

/-- Search for `Enter passphrase .*:` in a chunk: some occurrence of the
literal followed by a `:` with no newline in between. -/
def searchPassphrase : List Char → Bool
  | [] => false
  | c :: rest =>
    ("Enter passphrase ".data.isPrefixOf (c :: rest) &&
      (((c :: rest).drop 17).takeWhile (fun x => x ≠ '\n')).contains ':')
    || searchPassphrase rest

/-- Search for `.*@.* password:` in a chunk: some `@` followed by the literal
`password:` (preceded by a space) with no newline in between. -/
def searchPassword : List Char → Bool
  | [] => false
  | c :: rest =>
    (decide (c = '@') && containsSub " password:".data (rest.takeWhile (fun x => x ≠ '\n')))
    || searchPassword rest

/-- Embedding of `check_password(connection)`: returns the list of secrets
written back with `sendline` and the number of reads performed.  An exhausted
script behaves as a read that yields nothing. -/
def check_password (getSecret : String → String) : List ReadResult → List String × Nat
  | [] => ([], 0)
  | ReadResult.timeout :: _ => ([], 1)
  | ReadResult.chunk t :: rest =>
    if searchPassphrase t.data then
      ((getSecret t) :: (check_password getSecret rest).1, (check_password getSecret rest).2 + 1)
    else if searchPassword t.data then
      ((getSecret t) :: (check_password getSecret rest).1, (check_password getSecret rest).2 + 1)
    else ([], 1)

/-! ## `_spawn` (kernel.py lines 589-614) -/

/-- A pexpect child: identity of the OS process, the command it was spawned
with, its timeout, its line separator and the lines sent to it. -/
structure Conn where
  id : Nat
  spawnedCmd : String
  timeout : Nat
  linesep : String
  sent : List String
deriving DecidableEq

/-- Embedding of `connection.sendline(line)`: the line plus the connection's
line separator is written to the child. -/
def sendlineConn (c : Conn) (line : String) : Conn :=
  { c with sent := c.sent ++ [line ++ c.linesep] }

/-- The `self.connection` slot of the session. -/
structure KernelSt where
  connection : Option Conn
deriving DecidableEq

/-- A fresh pexpect child as created by
`pexpect_spawn(command, timeout=timeout, logfile=self.log)` followed by
`self.connection.linesep = "\n"`. -/
def spawnConn (command : String) (timeout : Nat) (freshId : Nat) : Conn :=
  { id := freshId, spawnedCmd := command, timeout := timeout, linesep := "\n", sent := [] }

/-- Embedding of `_spawn(command, timeout)`: when no connection exists a new
child is created and recorded; otherwise the command is sent to the existing
child on its own line.  Returns the new state, the returned connection and
whether a child was created.  `freshId` identifies the OS process a creation
would produce. -/
def _spawn (freshId : Nat) (st : KernelSt) (command : String) (timeout : Nat) :
    KernelSt × Conn × Bool :=
  match st.connection with
  | none =>
    let c := spawnConn command timeout freshId
    ({ connection := some c }, c, true)
  | some c =>
    let c' := sendlineConn c command
    ({ connection := some c' }, c', false)

/-- Run a whole sequence of `_spawn` calls, counting child creations. -/
def spawnMany (freshId : Nat) (st : KernelSt) : List String → KernelSt × Nat
  | [] => (st, 0)
  | cmd :: rest =>
    ((spawnMany freshId ((_spawn freshId st cmd 600).1) rest).1,
      (if (_spawn freshId st cmd 600).2.2 then 1 else 0) +
        (spawnMany freshId ((_spawn freshId st cmd 600).1) rest).2)

/-! ## `check_tunnels` and `tunnel_connection` (kernel.py lines 499-548) -/

/-- A tunnel process handle with its liveness. -/
structure Tunnel where
  id : Nat
  alive : Bool
deriving DecidableEq

/-- The `self.tunnels` dict, which only ever holds the `"tunnel"` key:
`none` models an absent key. -/
structure TunnelsSt where
  tunnels : Option Tunnel
deriving DecidableEq

/-- Embedding of `tunnel_connection()` restricted to its effect on the tunnel
record: one new tunnel process is spawned (an establish call) and stored under
the `"tunnel"` key, replacing any previous record.  `freshTunnel` is the
handle of the newly spawned process; the returned number counts establish
calls. -/
def tunnel_connection (freshTunnel : Tunnel) (_st : TunnelsSt) : TunnelsSt × Nat :=
  ({ tunnels := some freshTunnel }, 1)

/-- Embedding of `check_tunnels()`: when a tunnel is recorded and its process
is not alive, re-establish; otherwise do nothing. -/
def check_tunnels (freshTunnel : Tunnel) (st : TunnelsSt) : TunnelsSt × Nat :=
  match st.tunnels with
  | some t => if ¬ t.alive then tunnel_connection freshTunnel st else (st, 0)
  | none => (st, 0)

/-! ## `keep_alive` (kernel.py lines 550-587)

One loop iteration: the liveness check; if dead, log `Kernel died.` and every
remaining non-blank buffered line at error level and leave the loop; if alive,
`check_tunnels()` and then a non-blocking drain of the output (a timeout is a
normal outcome; a keyboard interrupt is forwarded with `sendintr`).  The loop
is modelled on the script of per-iteration observations of the child. -/

/-- Observable actions of the supervisor loop, in program order. -/
inductive SupAction
  | livenessCheck
  | logError (line : String)
  | tunnelCheck
  | drain
  | sendInterrupt
deriving DecidableEq

/-- Supervisor state: the loop is running, or it has terminated. -/
inductive SupState
  | RUNNING
  | TERMINATED
deriving DecidableEq

/-- Outcome of the `readlines()` drain of one alive iteration. -/
inductive DrainResult
  | got
  | timedOut
  | interrupted
deriving DecidableEq

/-- What one loop iteration observes of the child process. -/
structure IterInput where
  alive : Bool
  buffered : List String
  drainOutcome : DrainResult

/-- Python truthiness of `line.strip()`: blank means nothing remains after
stripping whitespace. -/
def isBlankLine (s : String) : Bool := (pyStrip s.data).isEmpty

/-- Actions of the iteration that finds the primary dead: log `Kernel died.`
and each non-blank buffered line at error level, then leave the loop. -/
def deadIterActions (buffered : List String) : List SupAction :=
  SupAction.livenessCheck :: SupAction.logError "Kernel died." ::
    ((buffered.filter (fun l => !isBlankLine l)).map SupAction.logError)

/-- Actions of an iteration that finds the primary alive: tunnel health check,
then the non-blocking drain, then an interrupt forward if one arrived. -/
def aliveIterActions (d : DrainResult) : List SupAction :=
  SupAction.livenessCheck :: SupAction.tunnelCheck :: SupAction.drain ::
    (match d with
     | DrainResult.interrupted => [SupAction.sendInterrupt]
     | _ => [])

/-- Embedding of the `while True` body of `keep_alive` over a script of
iteration observations: emits the actions of each iteration and stops at the
first iteration whose liveness check fails. -/
def keep_alive_loop : List IterInput → List SupAction × SupState
  | [] => ([], SupState.RUNNING)
  | it :: rest =>
    if it.alive then
      (aliveIterActions it.drainOutcome ++ (keep_alive_loop rest).1, (keep_alive_loop rest).2)
    else
      (deadIterActions it.buffered, SupState.TERMINATED)

/-! ## `__init__` (kernel.py lines 187-265)

The constructor: load the connection info (a missing file propagates the
`OSError` unless the interface is `test`), derive the session uuid, spawn the
gateway chain when tunnel hosts are given (followed by a credential check on
that connection), then dispatch on the interface string, raising
`ValueError("Unknown interface ...")` for an unknown one.  The model records
process events up to and including the launch submission of the selected
interface; the subsequent ack/`expect` interaction, `start_kernel` and
`tunnel_connection` are not modelled (no claim depends on them). -/

/-- A process-level event of the constructor. -/
inductive InitEvent
  | spawned (command : String)
  | sent (line : String)
deriving DecidableEq

/-- The exceptions the constructor can raise. -/
inductive InitError
  | ioError
  | valueError (msg : String)
deriving DecidableEq

/-- The launch command the interface dispatch submits, for the interfaces that
submit one (`test` submits nothing; an unknown interface raises). -/
def interfaceCommand (interface : String) (cpus : Nat) (pe : String) (host : String)
    (launchArgs launchCmd : Option String) : Option String :=
  if interface = "local" then some (local_cmd launchArgs launchCmd)
  else if interface = "pbs" then some (pbs_cmd cpus launchArgs launchCmd)
  else if interface = "sge" then some (sge_cmd "qlogin" cpus pe launchArgs launchCmd)
  else if interface = "sge_qrsh" then some (sge_cmd "qrsh" cpus pe launchArgs launchCmd)
  else if interface = "slurm" then some (slurm_cmd cpus launchArgs launchCmd)
  else if interface = "lsf" then some (lsf_cmd cpus launchArgs launchCmd)
  else if interface = "ssh" then some (ssh_login_cmd launchArgs host)
  else none

/-- How `_spawn` realises the launch submission: a spawn when no connection
exists yet, a `sendline` into the gateway chain otherwise. -/
def launchEvent (connExists : Bool) (cmd : String) : InitEvent :=
  if connExists then InitEvent.sent cmd else InitEvent.spawned cmd

/-- Embedding of `RemoteIKernel.__init__` up to the launch submission: the
ordered process events and the exception, if one is raised.
`connectionFileLoads` tells whether `json.load(open(connection_info))`
succeeds; `gwReads` is the output script of the gateway chain consumed by
`check_password`. -/
def remote_ikernel_init (connectionFileLoads : Bool) (interface : String) (cpus : Nat)
    (pe : String) (host : String) (tunnelHosts : Option (List String))
    (launchArgs launchCmd : Option String) (getSecret : String → String)
    (gwReads : List ReadResult) : List InitEvent × Option InitError :=
  if connectionFileLoads = false ∧ interface ≠ "test" then ([], some InitError.ioError)
  else
    let gwEvents : List InitEvent :=
      match tunnelHosts with
      | none => []
      | some hs => InitEvent.spawned (tunnel_hosts_cmd hs) ::
          ((check_password getSecret gwReads).1.map InitEvent.sent)
    if interface = "test" then (gwEvents, none)
    else
      match interfaceCommand interface cpus pe host launchArgs launchCmd with
      | some cmd => (gwEvents ++ [launchEvent tunnelHosts.isSome cmd], none)
      | none => (gwEvents, some (InitError.valueError ("Unknown interface " ++ interface)))

/-! ## Helper lemmas -/

theorem replaceColonList_no_colon (l : List Char) : ':' ∉ replaceColonList l := by
  induction l with
  | nil => simp [replaceColonList]
  | cons c rest ih =>
    by_cases h : c = ':'
    · simp only [replaceColonList, if_pos h, List.mem_cons]
      rintro (h' | h' | h' | h' | h') <;> first | exact absurd h' (by decide) | exact ih h'
    · simp only [replaceColonList, if_neg h, List.mem_cons]
      rintro (h' | h')
      · exact h h'.symm
      · exact ih h'

theorem replaceColonList_of_no_colon (l : List Char) (h : ':' ∉ l) :
    replaceColonList l = l := by
  induction l with
  | nil => rfl
  | cons c rest ih =>
    have hc : c ≠ ':' := fun hc => h (hc ▸ List.mem_cons_self c rest)
    simp only [replaceColonList, if_neg hc]
    exact congrArg (c :: ·) (ih (fun hm => h (List.mem_cons_of_mem c hm)))

theorem replaceColonList_split (a b : List Char) (ha : ':' ∉ a) :
    replaceColonList (a ++ ':' :: b) =
      a ++ ' ' :: '-' :: 'p' :: ' ' :: replaceColonList b := by
  induction a with
  | nil => simp [replaceColonList]
  | cons c rest ih =>
    have hc : c ≠ ':' := fun hc => ha (hc ▸ List.mem_cons_self c rest)
    simp only [List.cons_append, replaceColonList, if_neg hc]
    exact congrArg (c :: ·) (ih (fun hm => ha (List.mem_cons_of_mem c hm)))

theorem replaceColonList_length (l : List Char) :
    (replaceColonList l).length = l.length + 3 * l.count ':' := by
  induction l with
  | nil => simp [replaceColonList]
  | cons c rest ih =>
    by_cases h : c = ':'
    · simp [replaceColonList, h, List.count_cons, ih]
      omega
    · simp [replaceColonList, h, List.count_cons, ih, Ne.symm h]
      omega

theorem replaceColonList_eq_flatMap (l : List Char) :
    replaceColonList l =
      l.flatMap (fun c => if c = ':' then [' ', '-', 'p', ' '] else [c]) := by
  induction l with
  | nil => rfl
  | cons c rest ih =>
    by_cases h : c = ':'
    · simp [replaceColonList, h, ih]
    · simp [replaceColonList, h, ih]

theorem rewriteHost_no_colon (h : String) : ':' ∉ (rewriteHost h).data := by
  unfold rewriteHost
  by_cases hc : hasColon h
  · rw [if_pos hc]
    exact replaceColonList_no_colon h.data
  · rw [if_neg hc]
    intro hm
    exact hc (by simpa [hasColon, List.elem_iff] using hm)

theorem rewriteHost_port_form (nm pt : String) (hn : ':' ∉ nm.data) (hp : ':' ∉ pt.data) :
    rewriteHost (nm ++ ":" ++ pt) = nm ++ " -p " ++ pt := by
  have hdata : (nm ++ ":" ++ pt).data = nm.data ++ ':' :: pt.data := by
    show nm.data ++ [':'] ++ pt.data = nm.data ++ ':' :: pt.data
    simp
  have hmem : hasColon (nm ++ ":" ++ pt) = true := by
    simp only [hasColon, hdata, List.elem_iff]
    exact List.mem_append_right _ (List.mem_cons_self _ _)
  unfold rewriteHost
  rw [if_pos hmem]
  apply congrArg String.mk
  show replaceColonList (nm ++ ":" ++ pt).data = nm.data ++ (' ' :: '-' :: 'p' :: ' ' :: []) ++ pt.data
  rw [hdata, replaceColonList_split nm.data pt.data hn, replaceColonList_of_no_colon pt.data hp]
  simp

theorem pyStrip_cons_space (l : List Char) : pyStrip (' ' :: l) = pyStrip l := by
  simp [pyStrip, List.dropWhile]

theorem pyStrip_eq_self (l : List Char)
    (h1 : ∀ c, l.head? = some c → c.isWhitespace = false)
    (h2 : ∀ c, l.getLast? = some c → c.isWhitespace = false) :
    pyStrip l = l := by
  match l with
  | [] => rfl
  | c :: m =>
    have hc : c.isWhitespace = false := h1 c rfl
    have hrevne : (c :: m).reverse ≠ ([] : List Char) := by simp
    obtain ⟨d, r, hr⟩ := List.exists_cons_of_ne_nil hrevne
    have hd : d.isWhitespace = false := by
      apply h2
      rw [← List.head?_reverse, hr]
      rfl
    unfold pyStrip
    rw [List.dropWhile_cons, hc]
    simp only [Bool.false_eq_true, if_false]
    rw [hr, List.dropWhile_cons, hd]
    simp only [Bool.false_eq_true, if_false]
    rw [← hr, List.reverse_reverse]

theorem containsSub_of_parts (pat a b : List Char) :
    containsSub pat (a ++ pat ++ b) = true := by
  induction a with
  | nil =>
    match pat with
    | [] =>
      match b with
      | [] => rfl
      | c :: b' => simp [containsSub, List.isPrefixOf]
    | p :: ps =>
      simp only [List.nil_append, List.cons_append, containsSub, Bool.or_eq_true]
      left
      simp [List.isPrefixOf_iff_prefix]
  | cons c rest ih =>
    match pat with
    | [] => simp [containsSub]
    | p :: ps =>
      simp only [List.cons_append, containsSub, Bool.or_eq_true]
      right
      exact ih

theorem pyStrip_of_s_head_zero_last (l : List Char)
    (h1 : l.head? = some 's') (h2 : l.getLast? = some '0') : pyStrip l = l := by
  apply pyStrip_eq_self <;> intro c hc
  · rw [h1] at hc
    obtain rfl : 's' = c := by simpa using hc
    decide
  · rw [h2] at hc
    obtain rfl : '0' = c := by simpa using hc
    decide

theorem tunnel_cmd_no_gateways (host : String) (ps : PortSet) :
    tunnel_cmd none host ps =
      "ssh " ++ portsStr ps ++ " " ++ rewriteHost host ++ " sleep 600" := by
  unfold tunnel_cmd
  apply String.ext
  show pyStrip ((joinSpace [] ++ " " ++
      ("ssh " ++ portsStr ps ++ " " ++ rewriteHost host ++ " sleep 600")).data) = _
  have hdata : (joinSpace [] ++ " " ++
      ("ssh " ++ portsStr ps ++ " " ++ rewriteHost host ++ " sleep 600")).data =
      ' ' :: ("ssh " ++ portsStr ps ++ " " ++ rewriteHost host ++ " sleep 600").data := rfl
  rw [hdata, pyStrip_cons_space]
  apply pyStrip_of_s_head_zero_last
  · rfl
  · show (("ssh " ++ portsStr ps ++ " " ++ rewriteHost host).data ++
      " sleep 600".data).getLast? = some '0'
    rw [List.getLast?_append_of_ne_nil _ (by decide)]
    decide

/-- C6: for a destination written `name:port` (no colon in either part), every
command that consumes a host string renders it through the ` -p ` rewrite and
the rendered host segment contains no raw colon: the ssh login command of
`launch_ssh`, the gateway-chain command `tunnel_hosts_cmd`, and the final
tunnel command `tunnel_cmd`. -/
theorem host_port_rewrite_everywhere (nm pt : String) (la : Option String) (ps : PortSet)
    (hn : ':' ∉ nm.data) (hp : ':' ∉ pt.data) :
    rewriteHost (nm ++ ":" ++ pt) = nm ++ " -p " ++ pt ∧
    ':' ∉ (rewriteHost (nm ++ ":" ++ pt)).data ∧
    ssh_login_cmd la (nm ++ ":" ++ pt) =
      "ssh -o StrictHostKeyChecking=no " ++ argsString la ++ " " ++ (nm ++ " -p " ++ pt) ∧
    tunnel_hosts_cmd [nm ++ ":" ++ pt] =
      "ssh -o StrictHostKeyChecking=no " ++ (nm ++ " -p " ++ pt) ∧
    tunnel_cmd none (nm ++ ":" ++ pt) ps =
      "ssh " ++ portsStr ps ++ " " ++ (nm ++ " -p " ++ pt) ++ " sleep 600" := by
  have hrw := rewriteHost_port_form nm pt hn hp
  refine ⟨hrw, rewriteHost_no_colon _, ?_, ?_, ?_⟩
  · show "ssh -o StrictHostKeyChecking=no " ++ argsString la ++ " " ++
      rewriteHost (nm ++ ":" ++ pt) = _
    rw [hrw]
  · show joinSpace ["ssh -o StrictHostKeyChecking=no", rewriteHost (nm ++ ":" ++ pt)] = _
    rw [show joinSpace ["ssh -o StrictHostKeyChecking=no", rewriteHost (nm ++ ":" ++ pt)] =
      "ssh -o StrictHostKeyChecking=no" ++ " " ++ rewriteHost (nm ++ ":" ++ pt) from rfl, hrw]
    apply String.ext
    simp
  · rw [tunnel_cmd_no_gateways, hrw]

/-- C6 witness: the rewrite at the concrete destination `gateway:2222`. -/
theorem host_port_rewrite_everywhere_witness :
    rewriteHost "gateway:2222" = "gateway -p 2222" ∧
    ':' ∉ (rewriteHost "gateway:2222").data ∧
    ssh_login_cmd none "gateway:2222" =
      "ssh -o StrictHostKeyChecking=no  gateway -p 2222" ∧
    tunnel_hosts_cmd ["gateway:2222"] =
      "ssh -o StrictHostKeyChecking=no gateway -p 2222" ∧
    tunnel_cmd none "gateway:2222" (PortSet.mk 1 2 3 4 5) =
      "ssh " ++ portsStr (PortSet.mk 1 2 3 4 5) ++ " gateway -p 2222 sleep 600" := by
  have h := host_port_rewrite_everywhere "gateway" "2222" none (PortSet.mk 1 2 3 4 5)
    (by decide) (by decide)
  exact ⟨h.1, h.2.1, h.2.2.1, h.2.2.2.1, h.2.2.2.2⟩

/-- C10: the `host:port` rewrite replaces every colon, not only the last one:
the replacement acts per character, the output never retains a colon, its
length grows by three characters per colon, and a two-colon host (an IPv6
literal) gets two ` -p ` insertions at each of the three consuming sites. -/
theorem replace_all_colons (h : String) :
    replaceColonList h.data =
      h.data.flatMap (fun c => if c = ':' then [' ', '-', 'p', ' '] else [c]) ∧
    ':' ∉ (rewriteHost h).data ∧
    (replaceColonList h.data).length = h.data.length + 3 * h.data.count ':' ∧
    rewriteHost "::1" = " -p  -p 1" ∧
    ssh_login_cmd none "fc00::1" = "ssh -o StrictHostKeyChecking=no  fc00 -p  -p 1" ∧
    tunnel_hosts_cmd ["db::1"] = "ssh -o StrictHostKeyChecking=no db -p  -p 1" ∧
    tunnel_cmd none "fc00::1" (PortSet.mk 1 2 3 4 5) =
      "ssh -L 127.0.0.1:1:127.0.0.1:1 -L 127.0.0.1:2:127.0.0.1:2 " ++
        "-L 127.0.0.1:3:127.0.0.1:3 -L 127.0.0.1:4:127.0.0.1:4 " ++
        "-L 127.0.0.1:5:127.0.0.1:5 fc00 -p  -p 1 sleep 600" :=
  ⟨replaceColonList_eq_flatMap h.data, rewriteHost_no_colon h,
    replaceColonList_length h.data, by decide, by decide, by decide, by decide⟩

theorem data_append (s t : String) : (s ++ t).data = s.data ++ t.data := rfl

theorem containsSub_of_split (pat l a b : List Char) (hl : l = a ++ pat ++ b) :
    containsSub pat l = true := hl ▸ containsSub_of_parts pat a b

/-- C5: for every scheduler variant that takes a resource-request fragment
(pbs, sge, slurm, lsf, with default overrides and empty extra args), the
generated launch command contains the variant's fragment, with the cpu count
substituted, exactly when the cpu count exceeds one; at cpu count 4 the
fragment appears, and at cpu count 1 the fragment slot is the empty string, so
no flag of the fragment remains in the command. -/
theorem resource_fragment_iff_cpus (cpus : Nat) :
    (containsSub ("-l ncpus=" ++ toString cpus).data (pbs_cmd cpus none none).data = true ↔
      1 < cpus) ∧
    (containsSub ("-pe smp " ++ toString cpus).data
      (sge_cmd "qlogin" cpus "smp" none none).data = true ↔ 1 < cpus) ∧
    (containsSub ("--cpus-per-task " ++ toString cpus).data
      (slurm_cmd cpus none none).data = true ↔ 1 < cpus) ∧
    (containsSub ("-n " ++ toString cpus).data (lsf_cmd cpus none none).data = true ↔
      1 < cpus) ∧
    pbs_cmd 4 none none = "qsub -I -l ncpus=4 -N remote_ikernel " ∧
    sge_cmd "qlogin" 4 "smp" none none = "qlogin -verbose -now n -pe smp 4 -N remote_ikernel " ∧
    slurm_cmd 4 none none = "srun --cpus-per-task 4 -J remote_ikernel  -v --pty bash -i" ∧
    lsf_cmd 4 none none = "bsub -n 4 -J remote_ikernel  -Is /bin/bash" ∧
    pbs_cmd 1 none none = "qsub -I  -N remote_ikernel " ∧
    sge_cmd "qlogin" 1 "smp" none none = "qlogin -verbose -now n  -N remote_ikernel " ∧
    slurm_cmd 1 none none = "srun  -J remote_ikernel  -v --pty bash -i" ∧
    lsf_cmd 1 none none = "bsub  -J remote_ikernel  -Is /bin/bash" := by
  refine ⟨⟨?_, ?_⟩, ⟨?_, ?_⟩, ⟨?_, ?_⟩, ⟨?_, ?_⟩,
    by decide, by decide, by decide, by decide, by decide, by decide, by decide, by decide⟩
  · intro hc
    by_contra h
    push_neg at h
    interval_cases cpus <;> revert hc <;> decide
  · intro h
    apply containsSub_of_split _ _ ("qsub".data ++ " -I ".data) (" -N remote_ikernel ".data)
    simp [pbs_cmd, get_cmd, pbs_cpu_string, if_pos h, argsString, data_append,
      List.append_assoc]
  · intro hc
    by_contra h
    push_neg at h
    interval_cases cpus <;> revert hc <;> decide
  · intro h
    apply containsSub_of_split _ _ ("qlogin".data ++ " -verbose -now n ".data)
      (" -N remote_ikernel ".data)
    simp [sge_cmd, get_cmd, sge_pe_string, if_pos h, argsString, data_append,
      List.append_assoc, show ("-pe smp ").data = "-pe ".data ++ "smp".data ++ " ".data
        from by decide]
  · intro hc
    by_contra h
    push_neg at h
    interval_cases cpus <;> revert hc <;> decide
  · intro h
    apply containsSub_of_split _ _ ("srun".data ++ " ".data)
      (" -J remote_ikernel ".data ++ "".data ++ " -v --pty bash -i".data)
    simp [slurm_cmd, get_cmd, slurm_tasks_string, if_pos h, argsString, data_append,
      List.append_assoc]
  · intro hc
    by_contra h
    push_neg at h
    interval_cases cpus <;> revert hc <;> decide
  · intro h
    apply containsSub_of_split _ _ ("bsub".data ++ " ".data)
      (" -J remote_ikernel ".data ++ "".data ++ " -Is /bin/bash".data)
    simp [lsf_cmd, get_cmd, lsf_tasks_string, if_pos h, argsString, data_append,
      List.append_assoc]

/-- C7: when the credential prompter reads a chunk containing neither the
passphrase-request pattern nor the `user@host password:` pattern, it writes
nothing back (zero `sendline` calls) and returns after that single immediate
non-blocking read; a read that yields no data likewise returns at once with
zero writes. -/
theorem check_password_no_prompt (t : String) (rest : List ReadResult)
    (getSecret : String → String)
    (h1 : searchPassphrase t.data = false) (h2 : searchPassword t.data = false) :
    check_password getSecret (ReadResult.chunk t :: rest) = ([], 1) ∧
    check_password getSecret (ReadResult.timeout :: rest) = ([], 1) := by
  constructor
  · simp [check_password, h1, h2]
  · rfl

/-- C7 witness: a login banner with no credential prompt. -/
theorem check_password_no_prompt_witness :
    check_password (fun _ => "secret")
      [ReadResult.chunk "Linux node042 x86_64\nnode042$ "] = ([], 1) :=
  (check_password_no_prompt "Linux node042 x86_64\nnode042$ " [] (fun _ => "secret")
    (by decide) (by decide)).1

theorem spawnMany_some_zero (freshId : Nat) (c : Conn) (cmds : List String) :
    (spawnMany freshId ⟨some c⟩ cmds).2 = 0 := by
  induction cmds generalizing c with
  | nil => rfl
  | cons cmd rest ih => simpa [spawnMany, _spawn] using ih (sendlineConn c cmd)

theorem spawnMany_none_le_one (freshId : Nat) (cmds : List String) :
    (spawnMany freshId ⟨none⟩ cmds).2 ≤ 1 := by
  cases cmds with
  | nil => simp [spawnMany]
  | cons cmd rest => simp [spawnMany, _spawn, spawnMany_some_zero]

/-- C8: `_spawn` creates a pty-backed child exactly when no connection exists
(the child is recorded with line separator set to a newline); with an existing
connection it creates nothing, writes the command followed by the line
terminator to it, and returns the same (unchanged) handle; consequently any
sequence of `_spawn` calls creates at most one child over the session's
lifetime, and none at all once a connection exists. -/
theorem spawn_at_most_one_child (freshId tmo : Nat) (cmd : String) (c : Conn)
    (cmds : List String) :
    _spawn freshId ⟨none⟩ cmd tmo =
      (⟨some (spawnConn cmd tmo freshId)⟩, spawnConn cmd tmo freshId, true) ∧
    (spawnConn cmd tmo freshId).linesep = "\n" ∧
    (spawnConn cmd tmo freshId).spawnedCmd = cmd ∧
    _spawn freshId ⟨some c⟩ cmd tmo =
      (⟨some (sendlineConn c cmd)⟩, sendlineConn c cmd, false) ∧
    (sendlineConn c cmd).sent = c.sent ++ [cmd ++ c.linesep] ∧
    (sendlineConn c cmd).id = c.id ∧
    (spawnMany freshId ⟨some c⟩ cmds).2 = 0 ∧
    (spawnMany freshId ⟨none⟩ cmds).2 ≤ 1 :=
  ⟨rfl, rfl, rfl, rfl, rfl, rfl, spawnMany_some_zero freshId c cmds,
    spawnMany_none_le_one freshId cmds⟩

/-- C2: the tunnel health check re-establishes exactly when a tunnel has been
recorded and its process is not alive: a live recorded tunnel gives zero
establish calls and an unchanged record, a dead recorded tunnel gives exactly
one establish call whose new handle replaces the record, and an absent record
gives zero establish calls. -/
theorem tunnel_health_check (fresh : Tunnel) (i : Nat) :
    check_tunnels fresh ⟨some ⟨i, true⟩⟩ = (⟨some ⟨i, true⟩⟩, 0) ∧
    check_tunnels fresh ⟨some ⟨i, false⟩⟩ = (⟨some fresh⟩, 1) ∧
    check_tunnels fresh ⟨none⟩ = (⟨none⟩, 0) ∧
    (∀ t : Tunnel, check_tunnels fresh ⟨some t⟩ =
      if t.alive then (⟨some t⟩, 0) else (⟨some fresh⟩, 1)) := by
  refine ⟨rfl, rfl, rfl, ?_⟩
  intro t
  obtain ⟨j, a⟩ := t
  cases a <;> rfl

/-- C1: when the keep-alive loop finds the primary dead after any number of
alive iterations, it emits exactly the actions of the alive iterations
followed by the dead iteration's actions (independently of any later
scripted iterations): it logs `Kernel died.` and every remaining non-blank
buffered line at error level, transitions to `TERMINATED`, and the dead
iteration performs no tunnel health check; within every alive iteration the
liveness check comes first, then the tunnel health check, then the
non-blocking drain. -/
theorem supervisor_dead_terminates (pre : List DrainResult) (buffered : List String)
    (d0 : DrainResult) (rest : List IterInput) (l : String) :
    keep_alive_loop (pre.map (fun d => IterInput.mk true [] d) ++
        IterInput.mk false buffered d0 :: rest) =
      (pre.flatMap aliveIterActions ++ deadIterActions buffered, SupState.TERMINATED) ∧
    deadIterActions buffered =
      SupAction.livenessCheck :: SupAction.logError "Kernel died." ::
        ((buffered.filter (fun s => !isBlankLine s)).map SupAction.logError) ∧
    (l ∈ buffered → isBlankLine l = false →
      SupAction.logError l ∈ deadIterActions buffered) ∧
    SupAction.tunnelCheck ∉ deadIterActions buffered ∧
    (∀ d : DrainResult,
      (aliveIterActions d).indexOf SupAction.livenessCheck = 0 ∧
      (aliveIterActions d).indexOf SupAction.tunnelCheck = 1 ∧
      (aliveIterActions d).indexOf SupAction.drain = 2) := by
  refine ⟨?_, rfl, ?_, ?_, ?_⟩
  · induction pre with
    | nil => simp [keep_alive_loop]
    | cons d pre' ih => simp [keep_alive_loop, ih]
  · intro hm hb
    simp only [deadIterActions, List.mem_cons]
    right; right
    exact List.mem_map_of_mem _ (List.mem_filter.mpr ⟨hm, by simp [hb]⟩)
  · simp [deadIterActions]
  · intro d
    cases d <;> exact ⟨rfl, rfl, rfl⟩

/-- C1 witness: one alive iteration, then the primary found dead with one
non-blank and one blank buffered line. -/
theorem supervisor_dead_terminates_witness :
    keep_alive_loop
        [IterInput.mk true [] DrainResult.timedOut,
         IterInput.mk false ["Traceback (most recent call last):", "   "] DrainResult.got,
         IterInput.mk true [] DrainResult.got] =
      ([SupAction.livenessCheck, SupAction.tunnelCheck, SupAction.drain,
        SupAction.livenessCheck, SupAction.logError "Kernel died.",
        SupAction.logError "Traceback (most recent call last):"], SupState.TERMINATED) ∧
    SupAction.logError "Traceback (most recent call last):" ∈
      deadIterActions ["Traceback (most recent call last):", "   "] ∧
    SupAction.tunnelCheck ∉ deadIterActions ["Traceback (most recent call last):", "   "] := by
  have h := supervisor_dead_terminates [DrainResult.timedOut]
    ["Traceback (most recent call last):", "   "] DrainResult.got
    [IterInput.mk true [] DrainResult.got] "Traceback (most recent call last):"
  refine ⟨?_, h.2.2.1 (by decide) (by decide), h.2.2.2.1⟩
  have h1 := h.1
  simpa using h1

/-- The interface strings the constructor's dispatch recognises. -/
def knownInterfaces : List String :=
  ["local", "pbs", "sge", "sge_qrsh", "slurm", "lsf", "ssh", "test"]

/-- C3 counterexample: with a non-empty gateway-host list, the constructor
spawns the gateway ssh chain before validating the interface string, so a
child process has already been spawned at the moment the unknown-interface
configuration error is raised. -/
theorem unknown_interface_spawn_counterexample :
    (remote_ikernel_init true "pbspro" 1 "smp" "" (some ["gw.example.com"]) none none
        (fun _ => "") []).2 = some (InitError.valueError "Unknown interface pbspro") ∧
    (remote_ikernel_init true "pbspro" 1 "smp" "" (some ["gw.example.com"]) none none
        (fun _ => "") []).1 =
      [InitEvent.spawned "ssh -o StrictHostKeyChecking=no gw.example.com"] := by
  constructor <;> rfl

/-- C3 amended: constructing a session with an interface string outside the
known set raises the configuration error (`ValueError`) for every combination
of the other constructor arguments; when the gateway-host list is absent no
child process has been spawned at that point, but when a gateway-host list is
present the gateway ssh chain has already been spawned (and possibly written
to by the credential check) before the interface string is validated. -/
theorem unknown_interface_error (interface : String) (cpus : Nat) (pe host : String)
    (hs : List String) (la lc : Option String) (gs : String → String)
    (gr : List ReadResult) (h : interface ∉ knownInterfaces) :
    remote_ikernel_init true interface cpus pe host none la lc gs gr =
      ([], some (InitError.valueError ("Unknown interface " ++ interface))) ∧
    remote_ikernel_init true interface cpus pe host (some hs) la lc gs gr =
      (InitEvent.spawned (tunnel_hosts_cmd hs) ::
        ((check_password gs gr).1.map InitEvent.sent),
       some (InitError.valueError ("Unknown interface " ++ interface))) := by
  simp only [knownInterfaces, List.mem_cons, not_or] at h
  obtain ⟨h1, h2, h3, h4, h5, h6, h7, h8, -⟩ := h
  constructor <;>
    simp [remote_ikernel_init, interfaceCommand, h1, h2, h3, h4, h5, h6, h7, h8]

/-- C3 amended witness: the interface string `pbspro` with and without a
gateway-host list. -/
theorem unknown_interface_error_witness :
    remote_ikernel_init true "pbspro" 1 "smp" "node1" none none none (fun _ => "") [] =
      ([], some (InitError.valueError "Unknown interface pbspro")) ∧
    remote_ikernel_init true "pbspro" 1 "smp" "node1" (some ["gw.example.com"]) none none
        (fun _ => "") [] =
      (InitEvent.spawned (tunnel_hosts_cmd ["gw.example.com"]) ::
        ((check_password (fun _ => "") []).1.map InitEvent.sent),
       some (InitError.valueError "Unknown interface pbspro")) :=
  unknown_interface_error "pbspro" 1 "smp" "node1" ["gw.example.com"] none none
    (fun _ => "") [] (by decide)

theorem isHexDig_digitChar (m : Nat) (h : m < 16) : isHexDig (Nat.digitChar m) = true := by
  interval_cases m <;> decide

theorem uuid4digits_length (r : Nat) : (uuid4digits r).length = 32 := by
  simp [uuid4digits]

theorem uuid4digits_mem_hex (r : Nat) : ∀ c ∈ uuid4digits r, isHexDig c = true := by
  intro c hc
  rw [uuid4digits, List.mem_ofFn] at hc
  obtain ⟨i, rfl⟩ := hc
  show isHexDig (if i.val = 12 then '4' else if i.val = 16 then
    Nat.digitChar (8 + nibble r 16 % 4) else Nat.digitChar (nibble r i.val)) = true
  by_cases h12 : i.val = 12
  · rw [if_pos h12]
    decide
  · by_cases h16 : i.val = 16
    · rw [if_neg h12, if_pos h16]
      exact isHexDig_digitChar _ (by
        have : nibble r 16 % 4 < 4 := Nat.mod_lt _ (by norm_num)
        omega)
    · rw [if_neg h12, if_neg h16]
      exact isHexDig_digitChar _ (Nat.mod_lt _ (by norm_num))

theorem uuid4digits_version (r : Nat) : (uuid4digits r)[12]? = some '4' := by
  rw [uuid4digits, List.getElem?_eq_getElem (by simp)]
  simp [List.getElem_ofFn]

theorem uuid4digits_variant (r : Nat) :
    ∃ v, (uuid4digits r)[16]? = some v ∧ (v = '8' ∨ v = '9' ∨ v = 'a' ∨ v = 'b') := by
  refine ⟨Nat.digitChar (8 + nibble r 16 % 4), ?_, ?_⟩
  · rw [uuid4digits, List.getElem?_eq_getElem (by simp)]
    simp [List.getElem_ofFn]
  · have h4 : nibble r 16 % 4 < 4 := Nat.mod_lt _ (by norm_num)
    set m := nibble r 16 % 4 with hm
    interval_cases m <;> decide

/-- The uuid4 model always produces a well-formed version-4 RFC-variant uuid. -/
theorem isWellFormedV4_uuid4hex (r : Nat) : IsWellFormedV4 (uuid4hex r) :=
  ⟨uuid4digits r, rfl, uuid4digits_length r, uuid4digits_mem_hex r,
    uuid4digits_version r, uuid4digits_variant r⟩

/-- C4 counterexample: `kernel-123e4567-e89b-12d3-a456-426614174000.json`
contains a segment that parses as a (version-1) UUID, yet extraction returns
nothing and the session uuid is freshly generated — the claimed "exactly when
the segment parses as a UUID" fails for non-version-4 shapes. -/
theorem uuid_extraction_counterexample :
    pyUuidParses "123e4567-e89b-12d3-a456-426614174000" = true ∧
    extract_uuid
      "/run/user/1000/jupyter/kernel-123e4567-e89b-12d3-a456-426614174000.json" = none ∧
    sessionUuid
      "/run/user/1000/jupyter/kernel-123e4567-e89b-12d3-a456-426614174000.json" 0 =
      uuid4hex 0 :=
  ⟨by decide, by decide, by decide⟩

/-- C4 amended: the session uuid is the uuid extracted from the
connection-info filename exactly when the regex of `extract_uuid` matches a
`kernel-<uuid>.json` segment (which requires a version-4, RFC-variant shape),
and is a freshly generated well-formed version-4 uuid otherwise; the filename
`.../kernel-123e4567-e89b-42d3-a456-426614174000.json` yields exactly
`123e4567-e89b-42d3-a456-426614174000`. -/
theorem session_uuid_derivation (f u : String) (r : Nat) :
    (extract_uuid f = none →
      sessionUuid f r = uuid4hex r ∧ IsWellFormedV4 (sessionUuid f r)) ∧
    (extract_uuid f = some u → sessionUuid f r = u) ∧
    extract_uuid
      "/run/user/1000/jupyter/kernel-123e4567-e89b-42d3-a456-426614174000.json" =
      some "123e4567-e89b-42d3-a456-426614174000" := by
  refine ⟨?_, ?_, by decide⟩
  · intro h
    have hs : sessionUuid f r = uuid4hex r := by simp [sessionUuid, h]
    exact ⟨hs, hs ▸ isWellFormedV4_uuid4hex r⟩
  · intro h
    simp [sessionUuid, h]

/-- C4 amended witness: a filename with no uuid segment yields the fresh
well-formed uuid. -/
theorem session_uuid_derivation_witness :
    extract_uuid "/tmp/connection.json" = none ∧
    sessionUuid "/tmp/connection.json" 7 = uuid4hex 7 ∧
    IsWellFormedV4 (sessionUuid "/tmp/connection.json" 7) := by
  have h := (session_uuid_derivation "/tmp/connection.json" "" 7).1 (by decide)
  exact ⟨by decide, h.1, h.2⟩

theorem parseHexRun_sound (n : Nat) (l ds rest : List Char)
    (h : parseHexRun n l = some (ds, rest)) :
    ds.length = n ∧ (∀ c ∈ ds, isHexDig c = true) ∧ l = ds ++ rest := by
  induction n generalizing l ds rest with
  | zero =>
    simp only [parseHexRun, Option.some.injEq, Prod.mk.injEq] at h
    obtain ⟨rfl, rfl⟩ := h
    simp
  | succ n ih =>
    match l with
    | [] => exact absurd h (by simp [parseHexRun])
    | c :: l' =>
      simp only [parseHexRun] at h
      by_cases hc : isHexDig c = true
      · rw [if_pos hc] at h
        cases hrec : parseHexRun n l' with
        | none => rw [hrec] at h; exact absurd h (by simp)
        | some p =>
          obtain ⟨ds', rest'⟩ := p
          rw [hrec] at h
          simp only [Option.some.injEq, Prod.mk.injEq] at h
          obtain ⟨rfl, rfl⟩ := h
          obtain ⟨hlen, hhex, happ⟩ := ih l' ds' rest' hrec
          refine ⟨by simp [hlen], ?_, by simp [happ]⟩
          intro x hx
          rcases List.mem_cons.mp hx with rfl | hx'
          · exact hc
          · exact hhex x hx'
      · rw [if_neg hc] at h
        exact absurd h (by simp)

theorem parseUuidBody_sound (l ds rest : List Char)
    (h : parseUuidBody l = some (ds, rest)) :
    ds.length = 32 ∧ (∀ c ∈ ds, isHexDig c = true) ∧
    ds[12]? = some '4' ∧
    ∃ v, ds[16]? = some v ∧ (v = '8' ∨ v = '9' ∨ v = 'a' ∨ v = 'b') := by
  unfold parseUuidBody at h
  cases h1 : parseHexRun 8 l with
  | none => simp [h1] at h
  | some p1 =>
  obtain ⟨g1, l1⟩ := p1
  simp only [h1] at h
  cases h2 : parseHexRun 4 (dropOptDash l1) with
  | none => simp [h2] at h
  | some p2 =>
  obtain ⟨g2, l2⟩ := p2
  simp only [h2] at h
  cases h3 : dropOptDash l2 with
  | nil => simp [h3] at h
  | cons c l3 =>
  simp only [h3] at h
  by_cases hc : c = '4'
  swap
  · rw [if_neg hc] at h; exact absurd h (by simp)
  rw [if_pos hc] at h
  subst hc
  cases h4 : parseHexRun 3 l3 with
  | none => simp [h4] at h
  | some p3 =>
  obtain ⟨g3, l4⟩ := p3
  simp only [h4] at h
  cases h5 : dropOptDash l4 with
  | nil => simp [h5] at h
  | cons v l5 =>
  simp only [h5] at h
  by_cases hv : (v = '8' || v = '9' || v = 'a' || v = 'b') = true
  swap
  · rw [if_neg hv] at h; exact absurd h (by simp)
  rw [if_pos hv] at h
  cases h6 : parseHexRun 3 l5 with
  | none => simp [h6] at h
  | some p4 =>
  obtain ⟨g4, l6⟩ := p4
  simp only [h6] at h
  cases h7 : parseHexRun 12 (dropOptDash l6) with
  | none => simp [h7] at h
  | some p5 =>
  obtain ⟨g5, l7⟩ := p5
  simp only [h7] at h
  simp only [Option.some.injEq, Prod.mk.injEq] at h
  obtain ⟨rfl, rfl⟩ := h
  obtain ⟨hl1, hx1, -⟩ := parseHexRun_sound 8 l g1 l1 h1
  obtain ⟨hl2, hx2, -⟩ := parseHexRun_sound 4 (dropOptDash l1) g2 l2 h2
  obtain ⟨hl3, hx3, -⟩ := parseHexRun_sound 3 l3 g3 l4 h4
  obtain ⟨hl4, hx4, -⟩ := parseHexRun_sound 3 l5 g4 l6 h6
  obtain ⟨hl5, hx5, -⟩ := parseHexRun_sound 12 (dropOptDash l6) g5 l7 h7
  have hvor : v = '8' ∨ v = '9' ∨ v = 'a' ∨ v = 'b' := by
    simp only [Bool.or_eq_true, decide_eq_true_eq] at hv
    tauto
  have hvhex : isHexDig v = true := by
    rcases hvor with rfl | rfl | rfl | rfl <;> decide
  refine ⟨?_, ?_, ?_, v, ?_, hvor⟩
  · simp [hl1, hl2, hl3, hl4, hl5]
  · intro x hx
    simp only [List.append_assoc, List.cons_append, List.mem_append, List.mem_cons] at hx
    rcases hx with hx | hx | rfl | hx | rfl | hx | hx
    · exact hx1 x hx
    · exact hx2 x hx
    · decide
    · exact hx3 x hx
    · exact hvhex
    · exact hx4 x hx
    · exact hx5 x hx
  · simp only [List.append_assoc, List.cons_append]
    rw [List.getElem?_append_right (by omega : g1.length ≤ 12),
      List.getElem?_append_right (by omega : g2.length ≤ 12 - g1.length),
      (by omega : 12 - g1.length - g2.length = 0)]
    exact List.getElem?_cons_zero
  · simp only [List.append_assoc, List.cons_append]
    rw [List.getElem?_append_right (by omega : g1.length ≤ 16),
      List.getElem?_append_right (by omega : g2.length ≤ 16 - g1.length),
      (by omega : 16 - g1.length - g2.length = 4),
      (by rfl : (4 : Nat) = 3 + 1), List.getElem?_cons_succ,
      List.getElem?_append_right (by omega : g3.length ≤ 3),
      (by omega : 3 - g3.length = 0)]
    exact List.getElem?_cons_zero

theorem parseKernelAt_sound (l ds : List Char) (h : parseKernelAt l = some ds) :
    ∃ m rest, parseUuidBody m = some (ds, rest) := by
  unfold parseKernelAt at h
  cases h1 : parseLit "kernel-".data l with
  | none => simp [h1] at h
  | some l1 =>
  simp only [h1] at h
  cases h2 : parseUuidBody l1 with
  | none => simp [h2] at h
  | some p =>
  obtain ⟨ds2, l2⟩ := p
  simp only [h2] at h
  cases l2 with
  | nil => exact absurd h (by simp)
  | cons c l3 =>
  replace h : (if c = '\n' then none
      else (parseLit "json".data l3).map (fun _ => ds2)) = some ds := h
  by_cases hc : c = '\n'
  · rw [if_pos hc] at h
    exact absurd h (by simp)
  · rw [if_neg hc] at h
    cases h3 : parseLit "json".data l3 with
    | none => simp [h3] at h
    | some l4 =>
      simp only [h3, Option.map_some', Option.some.injEq] at h
      subst h
      exact ⟨l1, c :: l3, h2⟩

theorem extractAux_sound (l ds : List Char) (h : extractAux l = some ds) :
    ∃ m rest, parseUuidBody m = some (ds, rest) := by
  induction l generalizing ds with
  | nil => exact absurd h (by simp [extractAux])
  | cons c rest ih =>
    unfold extractAux at h
    cases hrec : (if c = '\n' then none else extractAux rest) with
    | some ds2 =>
      simp only [hrec, Option.some.injEq] at h
      subst h
      by_cases hc : c = '\n'
      · rw [if_pos hc] at hrec; exact absurd hrec (by simp)
      · rw [if_neg hc] at hrec; exact ih _ hrec
    | none =>
      simp only [hrec] at h
      exact parseKernelAt_sound _ _ h

/-- Any uuid the extractor returns is a well-formed version-4, RFC-variant
uuid: the regex forces the version nibble to `4` and the variant nibble into
`[89ab]`. -/
theorem extract_uuid_wellFormed (f u : String) (h : extract_uuid f = some u) :
    IsWellFormedV4 u := by
  unfold extract_uuid at h
  cases hx : extractAux f.data with
  | none => rw [hx] at h; exact absurd h (by simp)
  | some ds =>
    rw [hx] at h
    simp only [Option.map_some', Option.some.injEq] at h
    subst h
    obtain ⟨m, rest, hb⟩ := extractAux_sound _ _ hx
    obtain ⟨hlen, hhex, h12, v, h16, hv⟩ := parseUuidBody_sound _ _ _ hb
    exact ⟨ds, rfl, hlen, hhex, h12, v, h16, hv⟩

/-- The sixteen characters of the regex character class `[0-9a-f]`. -/
def hexDigitChars : List Char :=
  ['f', 'e', 'd', 'c', 'b', 'a', '9', '8', '7', '6', '5', '4', '3', '2', '1', '0']

/-- A syntactically valid hyphenated uuid segment whose third group starts
with `c3` and whose fourth group starts with `c4`. -/
def segWith (c3 c4 : Char) : String :=
  "123e4567-e89b-" ++ ⟨[c3]⟩ ++ "2d3-" ++ ⟨[c4]⟩ ++ "456-426614174000"

/-- A connection-info filename holding exactly the `segWith c3 c4` segment. -/
def fileWith (c3 c4 : Char) : String :=
  "/run/user/1000/jupyter/kernel-" ++ segWith c3 c4 ++ ".json"

/-- C9: the extractor accepts only version-4, RFC-variant uuid shapes.  Any
uuid it ever returns is well-formed version-4 RFC-variant; and over the family
of filenames whose `kernel-....json` segment has a third group starting with
any hex digit `c3` and a fourth group starting with any hex digit `c4`,
whenever `c3 ≠ 4` or `c4 ∉ 89ab` the segment still parses as a syntactically
valid UUID, yet extraction returns nothing and the session uuid is freshly
generated. -/
theorem extract_uuid_v4_only (f u : String) (c3 c4 : Char) (r : Nat)
    (h3 : c3 ∈ hexDigitChars) (h4 : c4 ∈ hexDigitChars)
    (hviol : c3 ≠ '4' ∨ (c4 ≠ '8' ∧ c4 ≠ '9' ∧ c4 ≠ 'a' ∧ c4 ≠ 'b')) :
    (extract_uuid f = some u → IsWellFormedV4 u) ∧
    pyUuidParses (segWith c3 c4) = true ∧
    extract_uuid (fileWith c3 c4) = none ∧
    sessionUuid (fileWith c3 c4) r = uuid4hex r := by
  have key : pyUuidParses (segWith c3 c4) = true ∧
      extract_uuid (fileWith c3 c4) = none := by
    fin_cases h3 <;> fin_cases h4 <;> revert hviol <;> decide
  exact ⟨fun h => extract_uuid_wellFormed f u h, key.1, key.2,
    by simp [sessionUuid, key.2]⟩

/-- C9 witness: a version-1 shaped segment (third group starting `1`) parses
as a UUID but is rejected by the extractor. -/
theorem extract_uuid_v4_only_witness :
    pyUuidParses (segWith '1' 'a') = true ∧
    extract_uuid (fileWith '1' 'a') = none ∧
    sessionUuid (fileWith '1' 'a') 3 = uuid4hex 3 := by
  have h := extract_uuid_v4_only "x" "" '1' 'a' 3 (by decide) (by decide)
    (Or.inl (by decide))
  exact ⟨h.2.1, h.2.2.1, h.2.2.2⟩

/-- C5 witness: the PBS fragment with the count substituted at cpu count 4. -/
theorem resource_fragment_iff_cpus_witness :
    containsSub ("-l ncpus=" ++ toString 4).data (pbs_cmd 4 none none).data = true :=
  (resource_fragment_iff_cpus 4).1.mpr (by decide)
